import Mathlib

/-!
A shallow embedding of the SmartShift backend (Ogunlolu/smartshift), covering
the candidate ranking engine (`MatchingEngine` in
`backend/src/services/matching.ts`), the sick-call coverage workflow
(`backend/src/routes/sickcalls.ts`), and the notification dispatcher
(`backend/src/services/notifications.ts`).

Modelling conventions:
* Record ids are `Nat`.  The Prisma store is a `DB` structure holding the
  record lists in insertion order; `prisma.x.findUnique({where: {id}})` is
  `List.find?` on the id, `prisma.x.create` appends to the end of the list
  (using the `nextId` counter for the generated id), and
  `prisma.x.update({where: {id}})` maps an id-guarded update over the list.
* `Shift.date` (a day-granular DateTime in the schema) is an integer day
  index; date-fns `startOfWeek`/`endOfWeek` become `d - d % 7` and
  `d - d % 7 + 6`.  `startTime`/`endTime` are integer timestamps in
  milliseconds, and date-fns `differenceInHours` is truncating division by
  3 600 000, as in the library.  `ShiftResponse.createdAt` and the clock
  `DB.now` use day units, so "thirty days ago" is `now - 30`.
* date-fns `format` calls only feed human-readable message strings; they are
  rendered numerically (`formatDay`), which no claim inspects.
* The Twilio / mock transport of `NotificationService.sendSMS` is external:
  it is modelled by a `TransportResult` argument (`success sid` for a
  delivered message - including the mock branch, whose sid is `mock-...` -
  and `failure` for a thrown transport error, only possible when Twilio is
  configured).
* `socket.io` `emit` calls are fire-and-forget messages to an external
  real-time channel; they read but never write the store, so they are not
  part of the state transition.
* Thrown JS errors are `Option`/result constructors (`none` where the route
  wrapper would answer 500, explicit error constructors for the guarded
  4xx answers).
-/

namespace SmartShift

/-- `UserRole` from `shared/types.ts`. -/
inductive Role
  | ADMIN
  | MANAGER
  | STAFF
deriving DecidableEq, Repr

/-- `ShiftStatus` from `shared/types.ts`. -/
inductive ShiftStatus
  | SCHEDULED
  | SICK_CALL
  | COVERED
  | UNFILLED
  | CANCELLED
deriving DecidableEq, Repr

/-- `SickCallStatus` from `shared/types.ts`. -/
inductive SickCallStatus
  | PENDING
  | NOTIFYING
  | COVERED
  | UNFILLED
  | CANCELLED
deriving DecidableEq, Repr

/-- `NotificationStatus` from `shared/types.ts`. -/
inductive NotificationStatus
  | PENDING
  | SENT
  | DELIVERED
  | FAILED
  | RESPONDED
deriving DecidableEq, Repr

/-- Notification channel (`type` column of the Notification model). -/
inductive NotificationKind
  | SMS
  | EMAIL
deriving DecidableEq, Repr

/-- `ResponseType` from `shared/types.ts`. -/
inductive ResponseType
  | ACCEPT
  | DECLINE
  | NO_RESPONSE
deriving DecidableEq, Repr

/-- The audit-log `action` strings used by the sick-call routes. -/
inductive AuditAction
  | SICK_CALL_SUBMITTED
  | MANUAL_ASSIGNMENT
  | SHIFT_ACCEPTED
deriving DecidableEq, Repr

/-- The `User` model (fields used by the sick-call slice). -/
structure User where
  id : Nat
  organizationId : Nat
  role : Role
  active : Bool
  seniority : Option Nat
  phone : Option String
deriving DecidableEq, Repr

/-- The `Location` model (only its name is read, for message text). -/
structure Location where
  id : Nat
  name : String
deriving DecidableEq, Repr

/-- The `Shift` model (fields used by the sick-call slice). -/
structure Shift where
  id : Nat
  organizationId : Nat
  locationId : Nat
  assignedToId : Option Nat
  date : Int
  startTime : Int
  endTime : Int
  status : ShiftStatus
deriving DecidableEq, Repr

/-- The `SickCall` model (fields used by the sick-call slice). -/
structure SickCall where
  id : Nat
  organizationId : Nat
  locationId : Nat
  staffId : Nat
  shiftId : Nat
  reason : Option String
  status : SickCallStatus
  coveredById : Option Nat
  coveredAt : Option Int
deriving DecidableEq, Repr

/-- The `ShiftResponse` model. -/
structure ShiftResponse where
  id : Nat
  sickCallId : Nat
  shiftId : Nat
  staffId : Nat
  responseType : ResponseType
  responseText : String
  createdAt : Int
deriving DecidableEq, Repr

/-- The `Notification` model. -/
structure Notification where
  id : Nat
  sickCallId : Nat
  recipientId : Nat
  kind : NotificationKind
  status : NotificationStatus
  message : String
  sentAt : Option Int
  externalId : Option String
deriving DecidableEq, Repr

/-- The `AuditLog` model (the JSON `details` blob is not modelled). -/
structure AuditLog where
  organizationId : Nat
  userId : Nat
  sickCallId : Option Nat
  action : AuditAction
deriving DecidableEq, Repr

/-- The persistent store plus the ambient clock and the id generator. -/
structure DB where
  users : List User
  locations : List Location
  shifts : List Shift
  sickCalls : List SickCall
  responses : List ShiftResponse
  notifications : List Notification
  auditLogs : List AuditLog
  now : Int
  nextId : Nat
deriving DecidableEq, Repr

/-- `MatchingRules` from `matching.ts`. -/
structure MatchingRules where
  prioritizeAvailability : Bool
  avoidOvertime : Bool
  useSeniority : Bool
  useFairness : Bool
  overtimeThreshold : Int
deriving DecidableEq, Repr

/-- `DEFAULT_RULES` from `matching.ts`. -/
def DEFAULT_RULES : MatchingRules :=
  { prioritizeAvailability := true
    avoidOvertime := true
    useSeniority := true
    useFairness := true
    overtimeThreshold := 40 }

/-- `MatchedCandidate` from `shared/types.ts` (the embedded `user` keeps the
whole `User` record rather than the serialized subset). -/
structure MatchedCandidate where
  userId : Nat
  user : User
  score : Int
  rank : Nat
  reasons : List String
  isAvailable : Bool
  willBeOvertime : Bool
  hoursWorkedThisWeek : Int
deriving DecidableEq, Repr

/-- date-fns `differenceInHours`: truncating division of the millisecond
difference by one hour. -/
def differenceInHours (laterTime earlierTime : Int) : Int :=
  (laterTime - earlierTime).tdiv 3600000

/-- date-fns `startOfWeek` on a day index. -/
def weekStartOf (d : Int) : Int := d - d % 7

/-- date-fns `endOfWeek` on a day index. -/
def weekEndOf (d : Int) : Int := weekStartOf d + 6

/-- Render a day index for message text (stands in for date-fns `format`). -/
def formatDay (d : Int) : String := toString d

/-- JS truthiness of the nullable `seniority` column (`staff.seniority`
is falsy when missing or zero). -/
def seniorityTruthy : Option Nat → Bool
  | none => false
  | some s => s != 0

/-- Stable insertion step for a descending sort by an integer key: the new
element goes in front of the first element whose key is at most its own, so
earlier-input elements with equal keys stay in front. -/
def insertDescBy (key : α → Int) (x : α) : List α → List α
  | [] => [x]
  | y :: l => if key y ≤ key x then x :: y :: l else y :: insertDescBy key x l

/-- Stable descending sort by an integer key.  This is the behaviour of the
(ES2019, stability-guaranteed) JS `Array.prototype.sort` under the numeric
comparators used by the code (`(a, b) => b.score - a.score`, and the
Prisma `orderBy: desc` retrieval). -/
def sortDescBy (key : α → Int) : List α → List α
  | [] => []
  | x :: l => insertDescBy key x (sortDescBy key l)

/-- Sort key for the Prisma `orderBy: { seniority: 'desc' }` staff retrieval
(missing seniorities ordered last; nothing in the code depends on where
they land). -/
def seniorityKey (u : User) : Int :=
  match u.seniority with
  | some s => Int.ofNat s
  | none => -1

/-- The staff query of `findCandidates`: active staff of the organization,
ordered by seniority descending
(`prisma.user.findMany({where: {organizationId, role: 'STAFF', active: true},
orderBy: {seniority: 'desc'}})`). -/
def allStaffQuery (db : DB) (organizationId : Nat) : List User :=
  sortDescBy seniorityKey
    (db.users.filter fun u =>
      u.organizationId == organizationId && u.role == Role.STAFF && u.active)

/-- The weekly-shift query of `findCandidates`: shifts of the organization in
the week of the target date with status `SCHEDULED` or `COVERED`. -/
def weeklyShiftsQuery (db : DB) (organizationId : Nat) (date : Int) : List Shift :=
  db.shifts.filter fun s =>
    s.organizationId == organizationId &&
    decide (weekStartOf date ≤ s.date) && decide (s.date ≤ weekEndOf date) &&
    (s.status == ShiftStatus.SCHEDULED || s.status == ShiftStatus.COVERED)

/-- The recent-pickup query of `findCandidates`: `ACCEPT` responses created in
the last 30 days whose sick call belongs to the organization. -/
def recentPickupsQuery (db : DB) (organizationId : Nat) : List ShiftResponse :=
  db.responses.filter fun p =>
    p.responseType == ResponseType.ACCEPT &&
    decide (db.now - 30 ≤ p.createdAt) &&
    (match db.sickCalls.find? (fun sc => sc.id == p.sickCallId) with
     | some sc => sc.organizationId == organizationId
     | none => false)

/-- Number of recent accepted pickups of one staff member, as counted by the
fairness factor of `findCandidates`. -/
def recentPickupCount (db : DB) (organizationId staffId : Nat) : Nat :=
  ((recentPickupsQuery db organizationId).filter fun p => p.staffId == staffId).length

/-- The per-staff body of the `for (const staff of allStaff)` loop of
`findCandidates`: `none` is the `continue` that skips unavailable staff when
`prioritizeAvailability` is on, otherwise the scored candidate. -/
def evalStaff (rules : MatchingRules) (shiftId : Nat) (shift : Shift)
    (weeklyShifts : List Shift) (recentPickups : List ShiftResponse)
    (staff : User) : Option MatchedCandidate :=
  let isWorking := weeklyShifts.any fun s =>
    s.assignedToId == some staff.id && s.date == shift.date && s.id != shiftId
  if isWorking && rules.prioritizeAvailability then
    none
  else
    let hoursThisWeek :=
      (weeklyShifts.filter fun s => s.assignedToId == some staff.id).foldl
        (fun total s => total + differenceInHours s.endTime s.startTime) 0
    let shiftHours := differenceInHours shift.endTime shift.startTime
    let totalHoursWithShift := hoursThisWeek + shiftHours
    let willBeOvertime := decide (totalHoursWithShift > rules.overtimeThreshold)
    let recentPickupCnt := (recentPickups.filter fun p => p.staffId == staff.id).length
    let score1 : Int := if !isWorking then 1000 + 500 else 1000 - 1000
    let reasons1 := if !isWorking then ["Available"] else ["Already working"]
    let score2 :=
      if rules.avoidOvertime then
        if !willBeOvertime then score1 + 300 else score1 - 200
      else score1
    let reasons2 :=
      if rules.avoidOvertime then
        if !willBeOvertime then reasons1 ++ ["No overtime"]
        else reasons1 ++ ["Would be OT (" ++ toString totalHoursWithShift ++ "hrs)"]
      else reasons1
    let score3 :=
      if rules.useSeniority && seniorityTruthy staff.seniority then
        score2 + Int.ofNat (staff.seniority.getD 0) * 10
      else score2
    let reasons3 :=
      if rules.useSeniority && seniorityTruthy staff.seniority then
        reasons2 ++ ["Seniority: " ++ toString (staff.seniority.getD 0)]
      else reasons2
    let score4 :=
      if rules.useFairness then
        score3 + max 0 (100 - Int.ofNat recentPickupCnt * 20)
      else score3
    let reasons4 :=
      if rules.useFairness then
        reasons3 ++ ["Recent pickups: " ++ toString recentPickupCnt]
      else reasons3
    some
      { userId := staff.id
        user := staff
        score := score4
        rank := 0
        reasons := reasons4
        isAvailable := !isWorking
        willBeOvertime := willBeOvertime
        hoursWorkedThisWeek := hoursThisWeek }

/-- The candidate list of `findCandidates` before the final sort and rank
assignment: the shift lookup (`none` is the thrown `'Shift not found'`),
the three queries, and the scoring loop. -/
def rawCandidates (db : DB) (shiftId organizationId locationId : Nat)
    (rules : MatchingRules) : Option (List MatchedCandidate) :=
  match db.shifts.find? (fun s => s.id == shiftId) with
  | none => none
  | some shift =>
    let allStaff := allStaffQuery db organizationId
    let weeklyShifts := weeklyShiftsQuery db organizationId shift.date
    let recentPickups := recentPickupsQuery db organizationId
    some (allStaff.filterMap (evalStaff rules shiftId shift weeklyShifts recentPickups))

/-- The `candidates.forEach((candidate, index) => candidate.rank = index + 1)`
pass, starting from rank `i`. -/
def assignRanks (i : Nat) : List MatchedCandidate → List MatchedCandidate
  | [] => []
  | c :: l => { c with rank := i } :: assignRanks (i + 1) l

/-- `MatchingEngine.findCandidates(shiftId, organizationId, locationId, rules)`
(the `locationId` argument is accepted and never read, as in the source);
`none` is the thrown `'Shift not found'`. -/
def findCandidates (db : DB) (shiftId organizationId locationId : Nat)
    (rules : MatchingRules) : Option (List MatchedCandidate) :=
  (rawCandidates db shiftId organizationId locationId rules).map fun candidates =>
    assignRanks 1 (sortDescBy (fun c => c.score) candidates)

/-- `MatchingEngine.getTopCandidates`: rank, keep only available candidates,
take the first `count`. -/
def getTopCandidates (db : DB) (shiftId organizationId locationId : Nat)
    (count : Nat) (rules : MatchingRules) : Option (List MatchedCandidate) :=
  (findCandidates db shiftId organizationId locationId rules).map fun allCandidates =>
    (allCandidates.filter fun c => c.isAvailable).take count

/-- ASCII whitespace, for the JS `String.prototype.trim` model. -/
def isSpaceChar (c : Char) : Bool :=
  c == ' ' || c == '\t' || c == '\n' || c == '\r'

/-- JS `String.prototype.trim` (ASCII whitespace). -/
def jsTrim (s : String) : String :=
  String.mk (((s.data.dropWhile isSpaceChar).reverse.dropWhile isSpaceChar).reverse)

/-- JS `String.prototype.toUpperCase` (ASCII letters). -/
def jsToUpperCase (s : String) : String :=
  String.mk (s.data.map Char.toUpper)

/-- `NotificationService.parseResponse`: normalize and classify the free-text
reply. -/
def parseResponse (responseText : String) : Option ResponseType :=
  let normalized := jsToUpperCase (jsTrim responseText)
  if ["YES", "Y", "ACCEPT", "1", "OK"].contains normalized then
    some ResponseType.ACCEPT
  else if ["NO", "N", "DECLINE", "2", "NOPE"].contains normalized then
    some ResponseType.DECLINE
  else
    none

/-- Outcome of the external SMS transport for one attempt: `success sid`
covers both a delivered Twilio message and the always-succeeding mock branch,
`failure` a thrown transport error. -/
inductive TransportResult
  | success (sid : String)
  | failure
deriving DecidableEq, Repr

/-- The `catch` clause of `sendSMS`:
`prisma.notification.updateMany({where: {sickCallId, recipientId,
status: 'PENDING'}, data: {status: 'FAILED'}})`. -/
def failPendingNotifs (db : DB) (sickCallId recipientId : Nat) : DB :=
  { db with
    notifications := db.notifications.map fun n =>
      if n.sickCallId == sickCallId && n.recipientId == recipientId &&
          n.status == NotificationStatus.PENDING then
        { n with status := NotificationStatus.FAILED }
      else n }

/-- First half of `NotificationService.sendSMS`: resolve the recipient (and
their phone number) and persist the `PENDING` notification record.  `none` is
the thrown `'Recipient not found or has no phone number'`. -/
def sendSMSCreateStage (db : DB) (recipientId sickCallId : Nat)
    (message : String) : Option (Notification × DB) :=
  match db.users.find? (fun u => u.id == recipientId) with
  | none => none
  | some recipient =>
    match recipient.phone with
    | none => none
    | some _ =>
      let notif : Notification :=
        { id := db.nextId
          sickCallId := sickCallId
          recipientId := recipientId
          kind := NotificationKind.SMS
          status := NotificationStatus.PENDING
          message := message
          sentAt := none
          externalId := none }
      some (notif, { db with
                     notifications := db.notifications ++ [notif]
                     nextId := db.nextId + 1 })

/-- Second half of `NotificationService.sendSMS`: attempt the transport, then
update the record to `SENT` (with timestamp and external id) or, in the
`catch` clause, mark the pending attempt `FAILED` and return `null`. -/
def sendSMSTransportStage (db : DB) (notif : Notification)
    (tr : TransportResult) : Option Nat × DB :=
  match tr with
  | TransportResult.success sid =>
    (some notif.id,
     { db with
       notifications := db.notifications.map fun n =>
         if n.id == notif.id then
           { n with
             status := NotificationStatus.SENT
             sentAt := some db.now
             externalId := some sid }
         else n })
  | TransportResult.failure =>
    (none, failPendingNotifs db notif.sickCallId notif.recipientId)

/-- `NotificationService.sendSMS(recipientId, sickCallId, message)`.  The
whole body sits in a `try`/`catch` that returns `null`, so the result is an
`Option Nat` (the notification id) and never an error. -/
def sendSMS (db : DB) (recipientId sickCallId : Nat) (message : String)
    (tr : TransportResult) : Option Nat × DB :=
  match sendSMSCreateStage db recipientId sickCallId message with
  | none => (none, failPendingNotifs db sickCallId recipientId)
  | some (notif, db1) => sendSMSTransportStage db1 notif tr

/-- Location name lookup for message text (`shift.location.name`). -/
def locationName (db : DB) (locationId : Nat) : String :=
  match db.locations.find? (fun l => l.id == locationId) with
  | some l => l.name
  | none => ""

/-- The shift-offer SMS text of `startShiftCoverageProcess`. -/
def offerMessage (db : DB) (shift : Shift) : String :=
  "🚨 SmartShift: Shift available at " ++ locationName db shift.locationId ++
  " on " ++ formatDay shift.date ++ ", " ++ toString shift.startTime ++ "-" ++
  toString shift.endTime ++ ". Reply YES to accept, NO to decline."

/-- The confirmation SMS text of `assignShift`. -/
def confirmationMessage (db : DB) (shift : Shift) : String :=
  "✅ Shift confirmed! " ++ locationName db shift.locationId ++ " on " ++
  formatDay shift.date ++ ", " ++ toString shift.startTime ++ "-" ++
  toString shift.endTime

/-- The `assignShift(sickCallId, staffId, managerId?, reason?)` helper of
`routes/sickcalls.ts`: cover the sick call, reassign the shift, write the
audit entry (`MANUAL_ASSIGNMENT` when a manager id is present, otherwise
`SHIFT_ACCEPTED`), and send the confirmation SMS when the staff record
exists.  `none` is the thrown `'Sick call not found'`. -/
def assignShift (db : DB) (sickCallId staffId : Nat) (managerId : Option Nat)
    (tr : TransportResult) : Option DB :=
  match db.sickCalls.find? (fun sc => sc.id == sickCallId) with
  | none => none
  | some sickCall =>
    let db1 : DB := { db with
      sickCalls := db.sickCalls.map fun sc =>
        if sc.id == sickCallId then
          { sc with
            status := SickCallStatus.COVERED
            coveredById := some staffId
            coveredAt := some db.now }
        else sc }
    let db2 : DB := { db1 with
      shifts := db1.shifts.map fun s =>
        if s.id == sickCall.shiftId then
          { s with
              status := ShiftStatus.COVERED
              assignedToId := some staffId }
        else s }
    let audit : AuditLog :=
      { organizationId := sickCall.organizationId
        userId := managerId.getD staffId
        sickCallId := some sickCallId
        action := if managerId.isSome then AuditAction.MANUAL_ASSIGNMENT
                  else AuditAction.SHIFT_ACCEPTED }
    let db3 : DB := { db2 with auditLogs := db2.auditLogs ++ [audit] }
    let confirmText :=
      match db.shifts.find? (fun s => s.id == sickCall.shiftId) with
      | some shift => confirmationMessage db shift
      | none => ""
    let db4 :=
      match db3.users.find? (fun u => u.id == staffId) with
      | some _ => (sendSMS db3 staffId sickCallId confirmText tr).2
      | none => db3
    some db4

/-- Result of `POST /api/sickcalls/:id/respond`. -/
inductive RespondResult
  | notFound
  | alreadyCovered
  | invalidResponse
  | recorded (accepted : Bool)
  | serverError
deriving DecidableEq, Repr

/-- The `POST /api/sickcalls/:id/respond` handler: look up the sick call,
reject when already `COVERED`, parse the reply, record the `ShiftResponse`,
and on `ACCEPT` (when not covered) run `assignShift` with no manager. -/
def respond (db : DB) (sickCallId staffId : Nat) (responseText : String)
    (tr : TransportResult) : RespondResult × DB :=
  match db.sickCalls.find? (fun sc => sc.id == sickCallId) with
  | none => (RespondResult.notFound, db)
  | some sickCall =>
    if sickCall.status == SickCallStatus.COVERED then
      (RespondResult.alreadyCovered, db)
    else
      match parseResponse responseText with
      | none => (RespondResult.invalidResponse, db)
      | some responseType =>
        let response : ShiftResponse :=
          { id := db.nextId
            sickCallId := sickCallId
            shiftId := sickCall.shiftId
            staffId := staffId
            responseType := responseType
            responseText := responseText
            createdAt := db.now }
        let db1 : DB := { db with
          responses := db.responses ++ [response]
          nextId := db.nextId + 1 }
        if responseType == ResponseType.ACCEPT &&
            sickCall.status != SickCallStatus.COVERED then
          match assignShift db1 sickCallId staffId none tr with
          | some db2 => (RespondResult.recorded true, db2)
          | none => (RespondResult.serverError, db1)
        else
          (RespondResult.recorded false, db1)

/-- Result of `POST /api/sickcalls/submit`. -/
inductive SubmitResult
  | notFound
  | notAssignedToCaller
  | alreadySubmitted
  | created (sickCallId : Nat)
deriving DecidableEq, Repr

/-- The `POST /api/sickcalls/submit` handler up to its response: validate the
shift, create the `PENDING` sick call, flip the shift to `SICK_CALL`, and
write the audit entry.  The `setImmediate` auto-matching trigger is
fire-and-forget background work, modelled separately by
`startShiftCoverageProcess`. -/
def submit (db : DB) (shiftId locationId : Nat) (reason : Option String)
    (staffId organizationId : Nat) : SubmitResult × DB :=
  match db.shifts.find? (fun s => s.id == shiftId) with
  | none => (SubmitResult.notFound, db)
  | some shift =>
    if shift.assignedToId != some staffId then
      (SubmitResult.notAssignedToCaller, db)
    else if shift.status == ShiftStatus.SICK_CALL then
      (SubmitResult.alreadySubmitted, db)
    else
      let sickCall : SickCall :=
        { id := db.nextId
          organizationId := organizationId
          locationId := locationId
          staffId := staffId
          shiftId := shiftId
          reason := reason
          status := SickCallStatus.PENDING
          coveredById := none
          coveredAt := none }
      let db1 : DB := { db with
        sickCalls := db.sickCalls ++ [sickCall]
        nextId := db.nextId + 1 }
      let db2 : DB := { db1 with
        shifts := db1.shifts.map fun s =>
          if s.id == shiftId then { s with status := ShiftStatus.SICK_CALL } else s }
      let audit : AuditLog :=
        { organizationId := organizationId
          userId := staffId
          sickCallId := some sickCall.id
          action := AuditAction.SICK_CALL_SUBMITTED }
      let db3 : DB := { db2 with auditLogs := db2.auditLogs ++ [audit] }
      (SubmitResult.created sickCall.id, db3)

/-- `prisma.sickCall.update({where: {id}, data: {status}})`. -/
def markSickCallStatus (db : DB) (sickCallId : Nat) (st : SickCallStatus) : DB :=
  { db with
    sickCalls := db.sickCalls.map fun sc =>
      if sc.id == sickCallId then { sc with status := st } else sc }

/-- The `startShiftCoverageProcess` background workflow: mark the sick call
`NOTIFYING`, compute the top five available candidates, transition to
`UNFILLED` when there are none, otherwise SMS the offer to the first
candidate only. -/
def startShiftCoverageProcess (db : DB) (sickCallId : Nat)
    (tr : TransportResult) : DB :=
  match db.sickCalls.find? (fun sc => sc.id == sickCallId) with
  | none => db
  | some sickCall =>
    let db1 : DB := markSickCallStatus db sickCallId SickCallStatus.NOTIFYING
    match getTopCandidates db1 sickCall.shiftId sickCall.organizationId
        sickCall.locationId 5 DEFAULT_RULES with
    | none => db1
    | some [] => markSickCallStatus db1 sickCallId SickCallStatus.UNFILLED
    | some (c0 :: _) =>
      let text :=
        match db1.shifts.find? (fun s => s.id == sickCall.shiftId) with
        | some shift => offerMessage db1 shift
        | none => ""
      (sendSMS db1 c0.userId sickCallId text tr).2

/-- A candidate with its (mutable, sort-dependent) rank field zeroed; two
candidates with equal `stripRank` agree on everything but the rank. -/
def stripRank (c : MatchedCandidate) : MatchedCandidate := { c with rank := 0 }

/-- Staff member A: reporter of the example sick call, seniority 10. -/
def userA : User :=
  { id := 1, organizationId := 1, role := Role.STAFF, active := true
    seniority := some 10, phone := some "+16045550201" }

/-- Staff member B: free on the target date, seniority 8, one recent pickup. -/
def userB : User :=
  { id := 2, organizationId := 1, role := Role.STAFF, active := true
    seniority := some 8, phone := some "+16045550202" }

/-- Staff member C: assigned elsewhere on the target date, seniority 6. -/
def userC : User :=
  { id := 3, organizationId := 1, role := Role.STAFF, active := true
    seniority := some 6, phone := some "+16045550203" }

/-- The vacated shift (id 10): assigned to A, already flipped to `SICK_CALL`
by a submitted sick call, 07:00-15:00 on day 3. -/
def shiftS : Shift :=
  { id := 10, organizationId := 1, locationId := 5, assignedToId := some 1
    date := 3, startTime := 25200000, endTime := 54000000
    status := ShiftStatus.SICK_CALL }

/-- A scheduled shift (id 11) keeping C busy on the same date. -/
def shiftT : Shift :=
  { id := 11, organizationId := 1, locationId := 5, assignedToId := some 3
    date := 3, startTime := 25200000, endTime := 54000000
    status := ShiftStatus.SCHEDULED }

/-- The pending sick call (id 20) reported by A for shift 10. -/
def sickCall20 : SickCall :=
  { id := 20, organizationId := 1, locationId := 5, staffId := 1
    shiftId := 10, reason := some "flu", status := SickCallStatus.PENDING
    coveredById := none, coveredAt := none }

/-- An older covered sick call (id 90), the origin of B's recent pickup. -/
def sickCall90 : SickCall :=
  { id := 90, organizationId := 1, locationId := 5, staffId := 3
    shiftId := 12, reason := none, status := SickCallStatus.COVERED
    coveredById := some 2, coveredAt := some 95 }

/-- B's accepted pickup from 5 days ago (counts for the fairness factor). -/
def response95 : ShiftResponse :=
  { id := 95, sickCallId := 90, shiftId := 12, staffId := 2
    responseType := ResponseType.ACCEPT, responseText := "YES", createdAt := 95 }

/-- The running example store: the spec's ranking scenario (staff A reported
a sick call for shift 10; B free with one recent pickup; C busy). -/
def exDB : DB :=
  { users := [userA, userB, userC]
    locations := [{ id := 5, name := "Sunrise Care" }]
    shifts := [shiftS, shiftT]
    sickCalls := [sickCall20, sickCall90]
    responses := [response95]
    notifications := []
    auditLogs := []
    now := 100
    nextId := 100 }

/-- The concrete ranking output on the running example (A 2000, B 1960). -/
def exRankOut : List MatchedCandidate :=
  (findCandidates exDB 10 1 5 DEFAULT_RULES).getD []

/-- The example store after B's accepted response covered sick call 20. -/
def exDBCovered : DB :=
  (respond exDB 20 2 "YES" (TransportResult.success "sid1")).2

theorem insertDescBy_perm (key : α → Int) (x : α) (l : List α) :
    (insertDescBy key x l).Perm (x :: l) := by
  induction l with
  | nil => exact List.Perm.refl _
  | cons y l ih =>
    unfold insertDescBy
    split
    · exact List.Perm.refl _
    · exact (ih.cons y).trans (List.Perm.swap x y l)

theorem sortDescBy_perm (key : α → Int) (l : List α) :
    (sortDescBy key l).Perm l := by
  induction l with
  | nil => exact List.Perm.refl _
  | cons x l ih =>
    rw [sortDescBy]
    exact (insertDescBy_perm key x _).trans (ih.cons x)

theorem pairwise_insertDescBy (key : α → Int) (x : α) (l : List α)
    (h : l.Pairwise (fun a b => key b ≤ key a)) :
    (insertDescBy key x l).Pairwise (fun a b => key b ≤ key a) := by
  induction l with
  | nil => simp [insertDescBy]
  | cons y l ih =>
    rcases List.pairwise_cons.mp h with ⟨hy, hl⟩
    unfold insertDescBy
    split
    · rename_i hxy
      refine List.pairwise_cons.mpr ⟨?_, h⟩
      intro b hb
      rcases List.mem_cons.mp hb with rfl | hb
      · exact hxy
      · exact le_trans (hy b hb) hxy
    · rename_i hxy
      refine List.pairwise_cons.mpr ⟨?_, ih hl⟩
      intro b hb
      rcases List.mem_cons.mp ((insertDescBy_perm key x l).mem_iff.mp hb) with rfl | hb'
      · exact le_of_lt (lt_of_not_le hxy)
      · exact hy b hb'

theorem sortDescBy_pairwise (key : α → Int) (l : List α) :
    (sortDescBy key l).Pairwise (fun a b => key b ≤ key a) := by
  induction l with
  | nil => simp [sortDescBy]
  | cons x l ih =>
    rw [sortDescBy]
    exact pairwise_insertDescBy key x _ ih

theorem filter_insertDescBy (key : α → Int) (x : α) (l : List α) (c : Int) :
    (insertDescBy key x l).filter (fun a => key a == c) =
      if key x == c then x :: l.filter (fun a => key a == c)
      else l.filter (fun a => key a == c) := by
  induction l with
  | nil => by_cases hxc : (key x == c) = true <;> simp [insertDescBy, hxc]
  | cons y l ih =>
    unfold insertDescBy
    by_cases hxy : key y ≤ key x
    · rw [if_pos hxy]
      by_cases hxc : (key x == c) = true <;> simp [List.filter_cons, hxc]
    · rw [if_neg hxy]
      have hlt : key x < key y := lt_of_not_le hxy
      by_cases hxc : (key x == c) = true
      · have hxc' : key x = c := beq_iff_eq.mp hxc
        have hyc : (key y == c) = false :=
          beq_eq_false_iff_ne.mpr (by omega)
        simp [List.filter_cons, hyc, ih, hxc]
      · by_cases hyc : (key y == c) = true <;>
          simp [List.filter_cons, hyc, ih, hxc]

theorem filter_sortDescBy (key : α → Int) (l : List α) (c : Int) :
    (sortDescBy key l).filter (fun a => key a == c) =
      l.filter (fun a => key a == c) := by
  induction l with
  | nil => rfl
  | cons x l ih =>
    rw [sortDescBy, filter_insertDescBy]
    by_cases hxc : (key x == c) = true <;> simp [List.filter_cons, hxc, ih]

theorem assignRanks_map (f : MatchedCandidate → β)
    (hf : ∀ c r, f { c with rank := r } = f c) :
    ∀ (i : Nat) (l : List MatchedCandidate), (assignRanks i l).map f = l.map f := by
  intro i l
  induction l generalizing i with
  | nil => rfl
  | cons c l ih => simp [assignRanks, hf, ih]

theorem assignRanks_length :
    ∀ (i : Nat) (l : List MatchedCandidate), (assignRanks i l).length = l.length := by
  intro i l
  induction l generalizing i with
  | nil => rfl
  | cons c l ih => simp [assignRanks, ih]

theorem assignRanks_get_rank :
    ∀ (l : List MatchedCandidate) (i j : Nat) (h : j < (assignRanks i l).length),
      ((assignRanks i l).get ⟨j, h⟩).rank = i + j := by
  intro l
  induction l with
  | nil => intro i j h; simp [assignRanks] at h
  | cons c l ih =>
    intro i j h
    cases j with
    | zero => simp [assignRanks]
    | succ j =>
      have h' : j < (assignRanks (i + 1) l).length := by
        simpa [assignRanks] using h
      have := ih (i + 1) j h'
      simpa [assignRanks, Nat.add_assoc, Nat.add_comm 1 j] using this

theorem mem_assignRanks {c : MatchedCandidate} {i : Nat}
    {l : List MatchedCandidate} (h : c ∈ assignRanks i l) :
    ∃ c' ∈ l, stripRank c' = stripRank c := by
  have hm : stripRank c ∈ (assignRanks i l).map stripRank :=
    List.mem_map_of_mem _ h
  rw [assignRanks_map stripRank (fun _ _ => rfl)] at hm
  exact List.mem_map.mp hm

theorem findCandidates_eq_some {db : DB} {sid org loc : Nat}
    {rules : MatchingRules} {shift : Shift}
    (hs : db.shifts.find? (fun s => s.id == sid) = some shift) :
    findCandidates db sid org loc rules =
      some (assignRanks 1 (sortDescBy (fun c => c.score)
        ((allStaffQuery db org).filterMap
          (evalStaff rules sid shift (weeklyShiftsQuery db org shift.date)
            (recentPickupsQuery db org))))) := by
  simp [findCandidates, rawCandidates, hs]

theorem mem_findCandidates {db : DB} {sid org loc : Nat} {rules : MatchingRules}
    {shift : Shift} {out : List MatchedCandidate} {c : MatchedCandidate}
    (hs : db.shifts.find? (fun s => s.id == sid) = some shift)
    (hout : findCandidates db sid org loc rules = some out) (hc : c ∈ out) :
    ∃ staff ∈ allStaffQuery db org, ∃ c',
      evalStaff rules sid shift (weeklyShiftsQuery db org shift.date)
        (recentPickupsQuery db org) staff = some c' ∧
      stripRank c' = stripRank c := by
  rw [findCandidates_eq_some hs] at hout
  have hout' := Option.some.inj hout
  subst hout'
  rcases mem_assignRanks hc with ⟨c', hc', hstrip⟩
  have hc'' : c' ∈ (allStaffQuery db org).filterMap
      (evalStaff rules sid shift (weeklyShiftsQuery db org shift.date)
        (recentPickupsQuery db org)) :=
    (sortDescBy_perm (fun c => c.score) _).mem_iff.mp hc'
  rcases List.mem_filterMap.mp hc'' with ⟨staff, hstaff, heval⟩
  exact ⟨staff, hstaff, c', heval, hstrip⟩

theorem evalStaff_some_fields {rules : MatchingRules} {sid : Nat} {shift : Shift}
    {weekly : List Shift} {pickups : List ShiftResponse} {staff : User}
    {c : MatchedCandidate}
    (h : evalStaff rules sid shift weekly pickups staff = some c) :
    c.userId = staff.id ∧ c.user = staff ∧
    c.isAvailable = !(weekly.any fun s =>
      s.assignedToId == some staff.id && s.date == shift.date && s.id != sid) ∧
    c.hoursWorkedThisWeek =
      (weekly.filter fun s => s.assignedToId == some staff.id).foldl
        (fun total s => total + differenceInHours s.endTime s.startTime) 0 := by
  simp only [evalStaff] at h
  by_cases hskip : ((weekly.any fun s =>
      s.assignedToId == some staff.id && s.date == shift.date && s.id != sid) &&
      rules.prioritizeAvailability) = true
  · rw [if_pos hskip] at h
    cases h
  · rw [if_neg hskip] at h
    injection h with h
    subst h
    exact ⟨rfl, rfl, rfl, rfl⟩

theorem evalStaff_skips_working {rules : MatchingRules} {sid : Nat}
    {shift : Shift} {weekly : List Shift} {pickups : List ShiftResponse}
    {staff : User}
    (hp : rules.prioritizeAvailability = true)
    (hw : (weekly.any fun s =>
      s.assignedToId == some staff.id && s.date == shift.date && s.id != sid) = true) :
    evalStaff rules sid shift weekly pickups staff = none := by
  simp [evalStaff, hw, hp]

theorem evalStaff_score_formula {pa : Bool} {t : Int} {sid : Nat} {shift : Shift}
    {weekly : List Shift} {pickups : List ShiftResponse} {staff : User}
    {c : MatchedCandidate}
    (h : evalStaff
      { prioritizeAvailability := pa, avoidOvertime := true,
        useSeniority := true, useFairness := true, overtimeThreshold := t }
      sid shift weekly pickups staff = some c) :
    c.score = 1000
      + (if c.isAvailable then 500 else -1000)
      + (if c.hoursWorkedThisWeek + differenceInHours shift.endTime shift.startTime ≤ t
         then (300 : Int) else -200)
      + Int.ofNat (c.user.seniority.getD 0) * 10
      + max 0 (100 - Int.ofNat ((pickups.filter fun p =>
          p.staffId == c.userId).length) * 20) := by
  have hsen : ∀ (o : Option Nat) (x : Int),
      (if seniorityTruthy o = true then x + Int.ofNat (o.getD 0) * 10 else x)
        = x + Int.ofNat (o.getD 0) * 10 := by
    intro o x
    rcases o with _ | k
    · simp [seniorityTruthy]
    · by_cases hk : k = 0 <;> simp [seniorityTruthy, hk]
  have hzero2 : ∀ o : Option Nat, seniorityTruthy o = false → o.getD 0 = 0 := by
    intro o ho
    rcases o with _ | k
    · rfl
    · simpa [seniorityTruthy] using ho
  simp only [evalStaff] at h
  by_cases hskip : ((weekly.any fun s =>
      s.assignedToId == some staff.id && s.date == shift.date && s.id != sid) &&
      pa) = true
  · rw [if_pos hskip] at h
    cases h
  · rw [if_neg hskip] at h
    injection h with h
    subst h
    by_cases hw : (weekly.any fun s =>
        s.assignedToId == some staff.id && s.date == shift.date && s.id != sid) = true <;>
      by_cases hot : ((weekly.filter fun s => s.assignedToId == some staff.id).foldl
          (fun total s => total + differenceInHours s.endTime s.startTime) 0)
          + differenceInHours shift.endTime shift.startTime ≤ t <;>
        simp [hw, hot, hsen, not_lt, seniorityTruthy] <;>
          exact fun hzero => hzero2 staff.seniority hzero

theorem stripRank_eq_fields {c c' : MatchedCandidate}
    (h : stripRank c' = stripRank c) :
    c'.userId = c.userId ∧ c'.user = c.user ∧ c'.score = c.score ∧
    c'.isAvailable = c.isAvailable ∧ c'.willBeOvertime = c.willBeOvertime ∧
    c'.hoursWorkedThisWeek = c.hoursWorkedThisWeek := by
  cases c
  cases c'
  simp_all [stripRank]

theorem evalStaff_eq_none_iff {rules : MatchingRules} {sid : Nat} {shift : Shift}
    {weekly : List Shift} {pickups : List ShiftResponse} {staff : User} :
    evalStaff rules sid shift weekly pickups staff = none ↔
      ((weekly.any fun s =>
        s.assignedToId == some staff.id && s.date == shift.date && s.id != sid) &&
        rules.prioritizeAvailability) = true := by
  simp only [evalStaff]
  by_cases hskip : ((weekly.any fun s =>
      s.assignedToId == some staff.id && s.date == shift.date && s.id != sid) &&
      rules.prioritizeAvailability) = true
  · simp [hskip]
  · simp [hskip]

theorem exists_mem_assignRanks (i : Nat) {c' : MatchedCandidate}
    {l : List MatchedCandidate} (h : c' ∈ l) :
    ∃ c ∈ assignRanks i l, stripRank c = stripRank c' := by
  have hm : stripRank c' ∈ l.map stripRank := List.mem_map_of_mem _ h
  rw [← assignRanks_map stripRank (fun _ _ => rfl) i l] at hm
  exact List.mem_map.mp hm

theorem assignRanks_filter_map_userId (k : Int) :
    ∀ (i : Nat) (l : List MatchedCandidate),
      (((assignRanks i l).filter fun c => c.score == k).map fun c => c.userId)
        = ((l.filter fun c => c.score == k).map fun c => c.userId) := by
  intro i l
  induction l generalizing i with
  | nil => rfl
  | cons c l ih =>
    by_cases hck : (c.score == k) = true <;>
      simp [assignRanks, List.filter_cons, hck, ih]

theorem sendSMS_preserves (db : DB) (rid scid : Nat) (msg : String)
    (tr : TransportResult) :
    ((sendSMS db rid scid msg tr).2).users = db.users ∧
    ((sendSMS db rid scid msg tr).2).locations = db.locations ∧
    ((sendSMS db rid scid msg tr).2).shifts = db.shifts ∧
    ((sendSMS db rid scid msg tr).2).sickCalls = db.sickCalls ∧
    ((sendSMS db rid scid msg tr).2).responses = db.responses ∧
    ((sendSMS db rid scid msg tr).2).auditLogs = db.auditLogs ∧
    ((sendSMS db rid scid msg tr).2).now = db.now := by
  rcases hu : db.users.find? (fun u => u.id == rid) with _ | u <;>
    simp only [sendSMS, sendSMSCreateStage, sendSMSTransportStage,
      failPendingNotifs, hu]
  · simp
  · rcases u.phone with _ | ph <;> rcases tr with sid | _ <;> simp

theorem sendSMS_recipients {db : DB} {rid scid : Nat} {msg : String}
    {tr : TransportResult} {n : Notification}
    (hn : n ∈ ((sendSMS db rid scid msg tr).2).notifications) :
    n.recipientId = rid ∨
      n.recipientId ∈ db.notifications.map (fun m => m.recipientId) := by
  rcases hu : db.users.find? (fun u => u.id == rid) with _ | u <;>
    simp only [sendSMS, sendSMSCreateStage, sendSMSTransportStage,
      failPendingNotifs, hu] at hn
  · rcases List.mem_map.mp hn with ⟨m, hm, he⟩
    right
    subst he
    exact List.mem_map.mpr ⟨m, hm, by split <;> rfl⟩
  · rcases hp : u.phone with _ | ph <;> rw [hp] at hn
    · rcases List.mem_map.mp hn with ⟨m, hm, he⟩
      right
      subst he
      exact List.mem_map.mpr ⟨m, hm, by split <;> rfl⟩
    · rcases tr with sid | _ <;> simp only [] at hn
      · rcases List.mem_map.mp hn with ⟨m, hm, he⟩
        rcases List.mem_append.mp hm with hm' | hm'
        · right
          subst he
          exact List.mem_map.mpr ⟨m, hm', by split <;> rfl⟩
        · left
          subst he
          rcases List.mem_singleton.mp hm' with rfl
          split <;> rfl
      · rcases List.mem_map.mp hn with ⟨m, hm, he⟩
        rcases List.mem_append.mp hm with hm' | hm'
        · right
          subst he
          exact List.mem_map.mpr ⟨m, hm', by split <;> rfl⟩
        · left
          subst he
          rcases List.mem_singleton.mp hm' with rfl
          split <;> rfl

theorem find?_update_sickCalls (l : List SickCall) (i : Nat)
    (g : SickCall → SickCall) (hg : ∀ x, (g x).id = x.id) :
    (l.map fun x => if x.id == i then g x else x).find? (fun x => x.id == i)
      = (l.find? (fun x => x.id == i)).map g := by
  induction l with
  | nil => rfl
  | cons a l ih =>
    by_cases ha : a.id = i
    · have hab : (a.id == i) = true := by simp [ha]
      have hga : ((g a).id == i) = true := by simp [hg, ha]
      simp [List.find?_cons, ha, hab, hga, -List.find?_map]
    · have hab : (a.id == i) = false := by simp [ha]
      simp [List.find?_cons, ha, hab, -List.find?_map]
      simpa [-List.find?_map] using ih

theorem find?_update_shifts (l : List Shift) (i : Nat)
    (g : Shift → Shift) (hg : ∀ x, (g x).id = x.id) :
    (l.map fun x => if x.id == i then g x else x).find? (fun x => x.id == i)
      = (l.find? (fun x => x.id == i)).map g := by
  induction l with
  | nil => rfl
  | cons a l ih =>
    by_cases ha : a.id = i
    · have hab : (a.id == i) = true := by simp [ha]
      have hga : ((g a).id == i) = true := by simp [hg, ha]
      simp [List.find?_cons, ha, hab, hga, -List.find?_map]
    · have hab : (a.id == i) = false := by simp [ha]
      simp [List.find?_cons, ha, hab, -List.find?_map]
      simpa [-List.find?_map] using ih

/-- C1: every candidate returned by `findCandidates` (with the overtime,
seniority and fairness factors on, any availability-filter setting and any
threshold, in particular the defaults) is scored exactly as the spec says:
base 1000; plus 500 if not already working that date, else minus 1000; plus
300 if the week's hours including this shift stay at or below the overtime
threshold, else minus 200; plus seniority times 10 when seniority is known
(0 when missing); plus max(0, 100 minus 20 per accepted pickup in the last
30 days). -/
theorem score_formula_correct {db : DB} {sid org loc : Nat} {pa : Bool}
    {t : Int} {shift : Shift} {out : List MatchedCandidate}
    {c : MatchedCandidate}
    (hs : db.shifts.find? (fun s => s.id == sid) = some shift)
    (hout : findCandidates db sid org loc
      { prioritizeAvailability := pa, avoidOvertime := true,
        useSeniority := true, useFairness := true,
        overtimeThreshold := t } = some out)
    (hc : c ∈ out) :
    c.score = 1000
      + (if c.isAvailable then 500 else -1000)
      + (if c.hoursWorkedThisWeek
            + differenceInHours shift.endTime shift.startTime ≤ t
         then (300 : Int) else -200)
      + Int.ofNat (c.user.seniority.getD 0) * 10
      + max 0 (100 - Int.ofNat (recentPickupCount db org c.userId) * 20) := by
  rcases mem_findCandidates hs hout hc with ⟨staff, hstaff, c', heval, hstrip⟩
  rcases stripRank_eq_fields hstrip with ⟨huid, huser, hscore, havail, _, hhours⟩
  have hform := evalStaff_score_formula heval
  rw [recentPickupCount, ← huid, ← huser, ← hscore, ← havail, ← hhours]
  exact hform

/-- C1 witness: on the running example the formula holds for the returned
candidates, e.g. candidate B with score 1960. -/
theorem score_formula_correct_witness :
    findCandidates exDB 10 1 5 DEFAULT_RULES = some exRankOut ∧
    0 < exRankOut.length ∧
    ∃ c ∈ exRankOut, c.score = 1000
      + (if c.isAvailable then 500 else -1000)
      + (if c.hoursWorkedThisWeek
            + differenceInHours shiftS.endTime shiftS.startTime ≤ 40
         then (300 : Int) else -200)
      + Int.ofNat (c.user.seniority.getD 0) * 10
      + max 0 (100 - Int.ofNat (recentPickupCount exDB 1 c.userId) * 20) := by
  have hout : findCandidates exDB 10 1 5 DEFAULT_RULES = some exRankOut := by decide
  have hlen : 0 < exRankOut.length := by decide
  refine ⟨hout, hlen, exRankOut.get ⟨0, hlen⟩, List.get_mem _ 0 hlen, ?_⟩
  exact score_formula_correct (by decide) hout (List.get_mem _ 0 hlen)

/-- C2: the candidate list of `findCandidates` is sorted in descending score
order, ranks are 1..N in list order (so rank 1 holds the maximum score),
ties keep the stable order of the pre-sort candidate list (which follows the
staff retrieval, ordered by seniority descending), and the function is
deterministic (it is a pure function of the store). -/
theorem rank_output_ordered {db : DB} {sid org loc : Nat}
    {rules : MatchingRules} {out : List MatchedCandidate}
    (hout : findCandidates db sid org loc rules = some out) :
    out.Pairwise (fun a b => b.score ≤ a.score) ∧
    (∀ j (h : j < out.length), (out.get ⟨j, h⟩).rank = j + 1) ∧
    (∀ h0 : 0 < out.length, (out.get ⟨0, h0⟩).rank = 1 ∧
      ∀ c ∈ out, c.score ≤ (out.get ⟨0, h0⟩).score) ∧
    (∀ raw, rawCandidates db sid org loc rules = some raw → ∀ k : Int,
      ((out.filter fun c => c.score == k).map fun c => c.userId)
        = ((raw.filter fun c => c.score == k).map fun c => c.userId)) ∧
    findCandidates db sid org loc rules = findCandidates db sid org loc rules := by
  have hmap : (rawCandidates db sid org loc rules).map
      (fun candidates => assignRanks 1 (sortDescBy (fun c => c.score) candidates))
        = some out := hout
  rcases Option.map_eq_some'.mp hmap with ⟨raw0, hraw0, hform⟩
  subst hform
  have hpair : (assignRanks 1 (sortDescBy (fun c => c.score) raw0)).Pairwise
      (fun a b => b.score ≤ a.score) := by
    have hm : (assignRanks 1 (sortDescBy (fun c => c.score) raw0)).map
        (fun c => c.score)
          = (sortDescBy (fun c => c.score) raw0).map (fun c => c.score) :=
      assignRanks_map (fun c => c.score) (fun _ _ => rfl) 1 _
    have hp := sortDescBy_pairwise (fun c => c.score) raw0
    have hmp : ((assignRanks 1 (sortDescBy (fun c => c.score) raw0)).map
        (fun c => c.score)).Pairwise (fun x y => y ≤ x) := by
      rw [hm]
      exact List.pairwise_map.mpr hp
    exact List.pairwise_map.mp hmp
  have hrank : ∀ j (h : j <
      (assignRanks 1 (sortDescBy (fun c => c.score) raw0)).length),
      ((assignRanks 1 (sortDescBy (fun c => c.score) raw0)).get ⟨j, h⟩).rank
        = j + 1 := by
    intro j h
    have := assignRanks_get_rank (sortDescBy (fun c => c.score) raw0) 1 j h
    omega
  refine ⟨hpair, hrank, ?_, ?_, rfl⟩
  · intro h0
    refine ⟨hrank 0 h0, ?_⟩
    intro c hc
    rcases List.mem_iff_get.mp hc with ⟨⟨i, hi⟩, rfl⟩
    rcases Nat.eq_zero_or_pos i with rfl | hpos
    · exact le_refl _
    · exact List.pairwise_iff_get.mp hpair ⟨0, h0⟩ ⟨i, hi⟩ hpos
  · intro raw hraw k
    rw [hraw] at hraw0
    have hreq := Option.some.inj hraw0
    subst hreq
    calc ((assignRanks 1 (sortDescBy (fun c => c.score) raw)).filter
            fun c => c.score == k).map (fun c => c.userId)
        = ((sortDescBy (fun c => c.score) raw).filter
            fun c => c.score == k).map (fun c => c.userId) :=
          assignRanks_filter_map_userId k 1 _
      _ = (raw.filter fun c => c.score == k).map (fun c => c.userId) := by
          rw [filter_sortDescBy (fun c => c.score) raw k]

/-- C2 witness: the concrete ranking output on the running example is
ordered, ranked 1..N and tie-stable. -/
theorem rank_output_ordered_witness :
    exRankOut.Pairwise (fun a b => b.score ≤ a.score) ∧
    (∀ j (h : j < exRankOut.length), (exRankOut.get ⟨j, h⟩).rank = j + 1) ∧
    (∀ h0 : 0 < exRankOut.length, (exRankOut.get ⟨0, h0⟩).rank = 1 ∧
      ∀ c ∈ exRankOut, c.score ≤ (exRankOut.get ⟨0, h0⟩).score) ∧
    (∀ raw, rawCandidates exDB 10 1 5 DEFAULT_RULES = some raw → ∀ k : Int,
      ((exRankOut.filter fun c => c.score == k).map fun c => c.userId)
        = ((raw.filter fun c => c.score == k).map fun c => c.userId)) ∧
    findCandidates exDB 10 1 5 DEFAULT_RULES
      = findCandidates exDB 10 1 5 DEFAULT_RULES :=
  rank_output_ordered (by decide)

theorem conflict_excluded {db : DB} {sid org loc uid : Nat}
    {shift conflict : Shift} {rules : MatchingRules}
    {out : List MatchedCandidate}
    (hpri : rules.prioritizeAvailability = true)
    (hs : db.shifts.find? (fun s => s.id == sid) = some shift)
    (hconf : conflict ∈ db.shifts)
    (horg : conflict.organizationId = org)
    (hassigned : conflict.assignedToId = some uid)
    (hdate : conflict.date = shift.date)
    (hid : conflict.id ≠ sid)
    (hstatus : conflict.status = ShiftStatus.SCHEDULED ∨
      conflict.status = ShiftStatus.COVERED)
    (hout : findCandidates db sid org loc rules = some out) :
    ∀ c ∈ out, c.userId ≠ uid := by
  intro c hc hcuid
  rcases mem_findCandidates hs hout hc with ⟨staff, hstaff, c', heval, hstrip⟩
  rcases stripRank_eq_fields hstrip with ⟨huid, _, _, _, _, _⟩
  rcases evalStaff_some_fields heval with ⟨huid', _, _, _⟩
  have hsid : staff.id = uid := by rw [← huid', huid, hcuid]
  have hw1 : weekStartOf shift.date ≤ conflict.date := by
    rw [hdate]
    have := Int.emod_nonneg shift.date (by decide : (7 : Int) ≠ 0)
    unfold weekStartOf
    omega
  have hw2 : conflict.date ≤ weekEndOf shift.date := by
    rw [hdate]
    have := Int.emod_lt_of_pos shift.date (by decide : (0 : Int) < 7)
    unfold weekEndOf weekStartOf
    omega
  have hmemw : conflict ∈ weeklyShiftsQuery db org shift.date := by
    refine List.mem_filter.mpr ⟨hconf, ?_⟩
    have hst : (conflict.status == ShiftStatus.SCHEDULED ||
        conflict.status == ShiftStatus.COVERED) = true := by
      rcases hstatus with h | h <;> simp [h]
    simp [horg, hw1, hw2, hst]
  have hworking : ((weeklyShiftsQuery db org shift.date).any fun s =>
      s.assignedToId == some staff.id && s.date == shift.date &&
        s.id != sid) = true := by
    refine List.any_eq_true.mpr ⟨conflict, hmemw, ?_⟩
    simp [hassigned, hdate, hid, hsid]
  rw [evalStaff_skips_working hpri hworking] at heval
  cases heval

/-- C3: a staff member already assigned to another active (`SCHEDULED` or
`COVERED`) shift on the target date is excluded from the ranked candidate
list entirely under the default rules (hence from its available subset), is
absent from `getTopCandidates`, and the automatic notify step never sends
them the offer: every notification present after `startShiftCoverageProcess`
either predates the run or goes to someone else. -/
theorem conflicting_staff_never_offered {db : DB} {sid org loc uid scid : Nat}
    {shift conflict : Shift} {sc : SickCall} {tr : TransportResult}
    (hs : db.shifts.find? (fun s => s.id == sid) = some shift)
    (hconf : conflict ∈ db.shifts)
    (horg : conflict.organizationId = org)
    (hassigned : conflict.assignedToId = some uid)
    (hdate : conflict.date = shift.date)
    (hid : conflict.id ≠ sid)
    (hstatus : conflict.status = ShiftStatus.SCHEDULED ∨
      conflict.status = ShiftStatus.COVERED)
    (hsc : db.sickCalls.find? (fun x => x.id == scid) = some sc)
    (hscs : sc.shiftId = sid) (hsco : sc.organizationId = org) :
    (∀ out, findCandidates db sid org loc DEFAULT_RULES = some out →
      ∀ c ∈ out, c.userId ≠ uid) ∧
    (∀ topOut, getTopCandidates db sid org loc 5 DEFAULT_RULES = some topOut →
      ∀ c ∈ topOut, c.userId ≠ uid) ∧
    (∀ n ∈ (startShiftCoverageProcess db scid tr).notifications,
      n.recipientId ≠ uid ∨
        n.recipientId ∈ db.notifications.map (fun m => m.recipientId)) := by
  have hpart1 : ∀ out, findCandidates db sid org loc DEFAULT_RULES = some out →
      ∀ c ∈ out, c.userId ≠ uid := fun out hout =>
    conflict_excluded rfl hs hconf horg hassigned hdate hid hstatus hout
  have hpart1' : ∀ (loc' : Nat) (db' : DB), db'.shifts = db.shifts →
      ∀ out, findCandidates db' sid org loc' DEFAULT_RULES = some out →
      ∀ c ∈ out, c.userId ≠ uid := by
    intro loc' db' hsh out hout
    refine conflict_excluded rfl ?_ ?_ horg hassigned hdate hid hstatus hout
    · rw [hsh]
      exact hs
    · rw [hsh]
      exact hconf
  refine ⟨hpart1, ?_, ?_⟩
  · intro topOut htop c hc
    rcases Option.map_eq_some'.mp htop with ⟨out, hout, hform⟩
    subst hform
    exact hpart1 out hout c (List.mem_of_mem_filter (List.mem_of_mem_take hc))
  · intro n hn
    simp only [startShiftCoverageProcess, hsc, hscs, hsco] at hn
    rcases hg : getTopCandidates (markSickCallStatus db scid SickCallStatus.NOTIFYING)
        sid org sc.locationId 5 DEFAULT_RULES with _ | cands
    · rw [hg] at hn
      right
      exact List.mem_map_of_mem _ hn
    · rcases cands with _ | ⟨c0, rest⟩
      · rw [hg] at hn
        right
        exact List.mem_map_of_mem _ hn
      · rw [hg] at hn
        rcases sendSMS_recipients hn with h | h
        · left
          rw [h]
          rcases Option.map_eq_some'.mp hg with ⟨out, hout, hform⟩
          have hc0 : c0 ∈ out := by
            have hmem : c0 ∈ (out.filter fun c => c.isAvailable).take 5 := by
              rw [hform]
              exact List.mem_cons_self c0 rest
            exact List.mem_of_mem_filter (List.mem_of_mem_take hmem)
          exact hpart1' sc.locationId (markSickCallStatus db scid SickCallStatus.NOTIFYING) rfl out hout c0 hc0
        · right
          exact h

/-- C3 witness: on the running example, staff C (id 3, busy with shift 11 on
the same date) never appears among candidates and never receives the offer. -/
theorem conflicting_staff_never_offered_witness :
    (∀ out, findCandidates exDB 10 1 5 DEFAULT_RULES = some out →
      ∀ c ∈ out, c.userId ≠ 3) ∧
    (∀ topOut, getTopCandidates exDB 10 1 5 5 DEFAULT_RULES = some topOut →
      ∀ c ∈ topOut, c.userId ≠ 3) ∧
    (∀ n ∈ (startShiftCoverageProcess exDB 20
        (TransportResult.success "sid9")).notifications,
      n.recipientId ≠ 3 ∨
        n.recipientId ∈ exDB.notifications.map (fun m => m.recipientId)) :=
  @conflicting_staff_never_offered exDB 10 1 5 3 20 shiftS shiftT sickCall20
    (TransportResult.success "sid9") (by decide) (by decide) (by decide)
    (by decide) (by decide) (by decide) (Or.inl (by decide)) (by decide)
    (by decide) (by decide)

/-- C7 counterexample: `findCandidates` called with an organization the shift
does not belong to still succeeds (returns a list, here the empty list for
organization 99), instead of failing with NotFound: only shift existence is
checked, not organization membership. -/
theorem rank_org_check_counterexample :
    (exDB.shifts.find? (fun s => s.id == 10)).map (fun s => s.organizationId)
      = some 1 ∧
    findCandidates exDB 10 99 5 DEFAULT_RULES = some [] := by decide

/-- C7 amended: `rank`/`findCandidates` fails with NotFound exactly when the
shift id does not resolve; the organization argument only scopes the staff,
weekly-shift and pickup queries and is never validated against the shift's
own organization.  The function is read-only: it is a pure `Option`-valued
function of the store and performs no mutation. -/
theorem rank_notfound_iff_shift_missing (db : DB) (sid org loc : Nat)
    (rules : MatchingRules) :
    findCandidates db sid org loc rules = none ↔
      db.shifts.find? (fun s => s.id == sid) = none := by
  unfold findCandidates rawCandidates
  rcases h : db.shifts.find? (fun s => s.id == sid) with _ | s <;> simp [h]

/-- C9: the staff member who reported the sick call is not excluded from
ranking their own vacated shift: the vacated shift has status `SICK_CALL`
(outside the `SCHEDULED`/`COVERED` conflict set) and the conflict check skips
the target shift id, so an active staff reporter with no other conflicting
shift that date appears in the candidate list with `isAvailable = true`.
Moreover (concretely, on the running example) the reporter ranks first and
the automatic notify step sends the offer SMS to the reporter themselves. -/
theorem reporter_can_cover_own_shift {db : DB} {sid org loc : Nat}
    {shift : Shift} {reporter : User}
    (hs : db.shifts.find? (fun s => s.id == sid) = some shift)
    (hmem : reporter ∈ db.users)
    (horg : reporter.organizationId = org)
    (hrole : reporter.role = Role.STAFF)
    (hactive : reporter.active = true)
    (hnoconf : ∀ s ∈ db.shifts, s.assignedToId = some reporter.id →
      s.date = shift.date → s.id ≠ sid →
      s.status ≠ ShiftStatus.SCHEDULED ∧ s.status ≠ ShiftStatus.COVERED) :
    (∃ out, findCandidates db sid org loc DEFAULT_RULES = some out ∧
      ∃ c ∈ out, c.userId = reporter.id ∧ c.isAvailable = true) ∧
    ((startShiftCoverageProcess exDB 20
        (TransportResult.success "sid9")).notifications.map
      (fun n => (n.recipientId, n.sickCallId)))
      = [(sickCall20.staffId, 20)] := by
  constructor
  · have hstaffmem : reporter ∈ allStaffQuery db org := by
      have hf : reporter ∈ db.users.filter (fun u =>
          u.organizationId == org && u.role == Role.STAFF && u.active) :=
        List.mem_filter.mpr ⟨hmem, by simp [horg, hrole, hactive]⟩
      exact (sortDescBy_perm seniorityKey _).mem_iff.mpr hf
    have hnw : ((weeklyShiftsQuery db org shift.date).any fun s =>
        s.assignedToId == some reporter.id && s.date == shift.date &&
          s.id != sid) = false := by
      rw [List.any_eq_false]
      intro s hsw hp
      rcases List.mem_filter.mp hsw with ⟨hsmem, hb⟩
      simp only [Bool.and_eq_true, beq_iff_eq, bne_iff_ne, ne_eq] at hp
      rcases hp with ⟨⟨h1, h2⟩, h3⟩
      have hnc := hnoconf s hsmem h1 h2 h3
      simp only [Bool.and_eq_true, Bool.or_eq_true, beq_iff_eq] at hb
      rcases hb with ⟨⟨⟨_, _⟩, _⟩, hst | hst⟩
      · exact hnc.1 hst
      · exact hnc.2 hst
    rcases heval : evalStaff DEFAULT_RULES sid shift
        (weeklyShiftsQuery db org shift.date)
        (recentPickupsQuery db org) reporter with _ | c'
    · exfalso
      have hx := evalStaff_eq_none_iff.mp heval
      rw [hnw] at hx
      simp at hx
    · rcases evalStaff_some_fields heval with ⟨huid', _, havail', _⟩
      have hraw : c' ∈ (allStaffQuery db org).filterMap
          (evalStaff DEFAULT_RULES sid shift (weeklyShiftsQuery db org shift.date)
            (recentPickupsQuery db org)) :=
        List.mem_filterMap.mpr ⟨reporter, hstaffmem, heval⟩
      have hsorted : c' ∈ sortDescBy (fun c => c.score)
          ((allStaffQuery db org).filterMap
            (evalStaff DEFAULT_RULES sid shift (weeklyShiftsQuery db org shift.date)
              (recentPickupsQuery db org))) :=
        (sortDescBy_perm (fun c => c.score) _).mem_iff.mpr hraw
      rcases exists_mem_assignRanks 1 hsorted with ⟨c, hcmem, hstrip⟩
      refine ⟨_, findCandidates_eq_some hs, c, hcmem, ?_, ?_⟩
      · rcases stripRank_eq_fields hstrip with ⟨huid, _, _, _, _, _⟩
        rw [huid, huid']
      · rcases stripRank_eq_fields hstrip with ⟨_, _, _, havail, _, _⟩
        rw [havail, havail', hnw]
        rfl
  · decide

/-- C9 witness: on the running example, reporter A (who called in sick for
shift 10) appears available in its own candidate list, and the notify step
texts the offer to A. -/
theorem reporter_can_cover_own_shift_witness :
    (∃ out, findCandidates exDB 10 1 5 DEFAULT_RULES = some out ∧
      ∃ c ∈ out, c.userId = userA.id ∧ c.isAvailable = true) ∧
    ((startShiftCoverageProcess exDB 20
        (TransportResult.success "sid9")).notifications.map
      (fun n => (n.recipientId, n.sickCallId)))
      = [(sickCall20.staffId, 20)] :=
  @reporter_can_cover_own_shift exDB 10 1 5 shiftS userA (by decide) (by decide)
    (by decide) (by decide) (by decide) (by decide)

theorem assignShift_state (db : DB) (scid staffId : Nat) (tr : TransportResult)
    {sc : SickCall}
    (hsc : db.sickCalls.find? (fun x => x.id == scid) = some sc) :
    ∃ db', assignShift db scid staffId none tr = some db' ∧
      db'.responses = db.responses ∧
      db'.sickCalls = db.sickCalls.map (fun x =>
        if x.id == scid then
          { x with
              status := SickCallStatus.COVERED
              coveredById := some staffId
              coveredAt := some db.now }
        else x) ∧
      db'.shifts = db.shifts.map (fun s =>
        if s.id == sc.shiftId then
          { s with
              status := ShiftStatus.COVERED
              assignedToId := some staffId }
        else s) ∧
      db'.auditLogs = db.auditLogs ++
        [{ organizationId := sc.organizationId, userId := staffId,
           sickCallId := some scid, action := AuditAction.SHIFT_ACCEPTED }] := by
  simp only [assignShift, hsc]
  rcases hu : db.users.find? (fun u => u.id == staffId) with _ | u
  · rw [hu]
    exact ⟨_, rfl, rfl, rfl, rfl, rfl⟩
  · rw [hu]
    refine ⟨_, rfl, ?_, ?_, ?_, ?_⟩ <;>
      simp [(sendSMS_preserves _ _ _ _ _).1, (sendSMS_preserves _ _ _ _ _).2.1,
        (sendSMS_preserves _ _ _ _ _).2.2.1, (sendSMS_preserves _ _ _ _ _).2.2.2.1,
        (sendSMS_preserves _ _ _ _ _).2.2.2.2.1,
        (sendSMS_preserves _ _ _ _ _).2.2.2.2.2.1]

theorem respond_accept_state (db : DB) (scid staffId : Nat) (text : String)
    (tr : TransportResult) {sc : SickCall}
    (hsc : db.sickCalls.find? (fun x => x.id == scid) = some sc)
    (hst : sc.status ≠ SickCallStatus.COVERED)
    (hpt : parseResponse text = some ResponseType.ACCEPT) :
    (respond db scid staffId text tr).1 = RespondResult.recorded true ∧
    (respond db scid staffId text tr).2.responses = db.responses ++
      [{ id := db.nextId, sickCallId := scid, shiftId := sc.shiftId,
         staffId := staffId, responseType := ResponseType.ACCEPT,
         responseText := text, createdAt := db.now }] ∧
    (respond db scid staffId text tr).2.sickCalls = db.sickCalls.map (fun x =>
      if x.id == scid then
        { x with
            status := SickCallStatus.COVERED
            coveredById := some staffId
            coveredAt := some db.now }
      else x) ∧
    (respond db scid staffId text tr).2.shifts = db.shifts.map (fun s =>
      if s.id == sc.shiftId then
        { s with
            status := ShiftStatus.COVERED
            assignedToId := some staffId }
      else s) ∧
    (respond db scid staffId text tr).2.auditLogs = db.auditLogs ++
      [{ organizationId := sc.organizationId, userId := staffId,
         sickCallId := some scid, action := AuditAction.SHIFT_ACCEPTED }] := by
  have hbeq : (sc.status == SickCallStatus.COVERED) = false :=
    beq_eq_false_iff_ne.mpr hst
  rcases assignShift_state
      { db with
        responses := db.responses ++
          [{ id := db.nextId, sickCallId := scid, shiftId := sc.shiftId,
             staffId := staffId, responseType := ResponseType.ACCEPT,
             responseText := text, createdAt := db.now }]
        nextId := db.nextId + 1 }
      scid staffId tr hsc with ⟨db', hassign, hresp, hscs, hshs, haud⟩
  have hr : respond db scid staffId text tr = (RespondResult.recorded true, db') := by
    simp only [respond, hsc, hbeq, hpt, bne, Bool.not_false, beq_self_eq_true,
      Bool.true_and, Bool.and_self, Bool.false_eq_true, if_false, if_true,
      ite_true, ite_false]
    rw [hassign]
  rw [hr]
  exact ⟨rfl, hresp, hscs, hshs, haud⟩

/-- C5: responding to a sick call whose status is already `COVERED` fails with
the already-covered error and leaves the whole store unchanged: no response
is recorded, no assignment is performed, the existing coverage stays as it
was. -/
theorem respond_on_covered_fails (db : DB) (scid staffId : Nat) (text : String)
    (tr : TransportResult) {sc : SickCall}
    (hsc : db.sickCalls.find? (fun x => x.id == scid) = some sc)
    (hst : sc.status = SickCallStatus.COVERED) :
    respond db scid staffId text tr = (RespondResult.alreadyCovered, db) := by
  have hbeq : (sc.status == SickCallStatus.COVERED) = true := by simp [hst]
  simp [respond, hsc, hbeq]

/-- C5 witness: after B's accept covered sick call 20, a further "YES" from C
is rejected and the store, including the existing coverage, is untouched. -/
theorem respond_on_covered_fails_witness :
    respond exDBCovered 20 3 "YES" (TransportResult.success "s2")
      = (RespondResult.alreadyCovered, exDBCovered) :=
  @respond_on_covered_fails exDBCovered 20 3 "YES" (TransportResult.success "s2")
    { sickCall20 with
      status := SickCallStatus.COVERED
      coveredById := some 2
      coveredAt := some 100 } (by decide) (by decide)

/-- C4: a parsable accept reply on a not-yet-covered sick call records an
`ACCEPT` response, covers the sick call with the responder as covering
staff, reassigns the shift to the responder with status `COVERED`, and
appends exactly one `SHIFT_ACCEPTED` audit entry (and no
`MANUAL_ASSIGNMENT` entry, which is reserved for manager-initiated
assignment). -/
theorem accept_covers_shift (db : DB) (scid staffId : Nat) (text : String)
    (tr : TransportResult) {sc : SickCall} {sh : Shift}
    (hsc : db.sickCalls.find? (fun x => x.id == scid) = some sc)
    (hst : sc.status ≠ SickCallStatus.COVERED)
    (hpt : parseResponse text = some ResponseType.ACCEPT)
    (hsh : db.shifts.find? (fun s => s.id == sc.shiftId) = some sh) :
    (respond db scid staffId text tr).1 = RespondResult.recorded true ∧
    (respond db scid staffId text tr).2.responses = db.responses ++
      [{ id := db.nextId, sickCallId := scid, shiftId := sc.shiftId,
         staffId := staffId, responseType := ResponseType.ACCEPT,
         responseText := text, createdAt := db.now }] ∧
    (respond db scid staffId text tr).2.sickCalls.find? (fun x => x.id == scid)
      = some { sc with
               status := SickCallStatus.COVERED
               coveredById := some staffId
               coveredAt := some db.now } ∧
    (respond db scid staffId text tr).2.shifts.find? (fun s => s.id == sc.shiftId)
      = some { sh with
               status := ShiftStatus.COVERED
               assignedToId := some staffId } ∧
    ((respond db scid staffId text tr).2.auditLogs.filter
        (fun a => a.action == AuditAction.SHIFT_ACCEPTED)).length =
      (db.auditLogs.filter
        (fun a => a.action == AuditAction.SHIFT_ACCEPTED)).length + 1 ∧
    ((respond db scid staffId text tr).2.auditLogs.filter
        (fun a => a.action == AuditAction.MANUAL_ASSIGNMENT)).length =
      (db.auditLogs.filter
        (fun a => a.action == AuditAction.MANUAL_ASSIGNMENT)).length := by
  rcases respond_accept_state db scid staffId text tr hsc hst hpt with
    ⟨h1, h2, h3, h4, h5⟩
  refine ⟨h1, h2, ?_, ?_, ?_, ?_⟩
  · rw [h3, find?_update_sickCalls db.sickCalls scid
      (fun x => { x with
        status := SickCallStatus.COVERED
        coveredById := some staffId
        coveredAt := some db.now }) (fun x => rfl), hsc]
    rfl
  · rw [h4, find?_update_shifts db.shifts sc.shiftId
      (fun s => { s with
        status := ShiftStatus.COVERED
        assignedToId := some staffId }) (fun x => rfl), hsh]
    rfl
  · rw [h5, List.filter_append, List.length_append]
    simp
  · rw [h5, List.filter_append, List.length_append]
    simp

/-- C4 witness: B texts "YES" on pending sick call 20 in the running example:
response recorded, sick call covered by B, shift 10 reassigned to B, exactly
one `SHIFT_ACCEPTED` audit entry, no `MANUAL_ASSIGNMENT` entry. -/
theorem accept_covers_shift_witness :
    (respond exDB 20 2 "YES" (TransportResult.success "sid1")).1
      = RespondResult.recorded true ∧
    (respond exDB 20 2 "YES" (TransportResult.success "sid1")).2.responses
      = exDB.responses ++
      [{ id := 100, sickCallId := 20, shiftId := 10, staffId := 2,
         responseType := ResponseType.ACCEPT, responseText := "YES",
         createdAt := 100 }] ∧
    (respond exDB 20 2 "YES"
        (TransportResult.success "sid1")).2.sickCalls.find?
        (fun x => x.id == 20)
      = some { sickCall20 with
               status := SickCallStatus.COVERED
               coveredById := some 2
               coveredAt := some 100 } ∧
    (respond exDB 20 2 "YES" (TransportResult.success "sid1")).2.shifts.find?
        (fun s => s.id == 10)
      = some { shiftS with
               status := ShiftStatus.COVERED
               assignedToId := some 2 } ∧
    ((respond exDB 20 2 "YES"
        (TransportResult.success "sid1")).2.auditLogs.filter
        (fun a => a.action == AuditAction.SHIFT_ACCEPTED)).length
      = (exDB.auditLogs.filter
          (fun a => a.action == AuditAction.SHIFT_ACCEPTED)).length + 1 ∧
    ((respond exDB 20 2 "YES"
        (TransportResult.success "sid1")).2.auditLogs.filter
        (fun a => a.action == AuditAction.MANUAL_ASSIGNMENT)).length
      = (exDB.auditLogs.filter
          (fun a => a.action == AuditAction.MANUAL_ASSIGNMENT)).length :=
  @accept_covers_shift exDB 20 2 "YES" (TransportResult.success "sid1")
    sickCall20 shiftS (by decide) (by decide) (by decide) (by decide)

/-- C6 counterexample: after B's accept covered sick call 20 (which is
`COVERED`, i.e. active in the sense of non-cancelled), the shift's new
assignee B can successfully submit a second sick call for the same shift 10,
so two non-cancelled sick calls for the shift coexist: the guard rejects
only while the shift status is `SICK_CALL`. -/
theorem second_sickcall_accepted_counterexample :
    (∃ x ∈ exDBCovered.sickCalls, x.shiftId = 10 ∧
      x.status ≠ SickCallStatus.CANCELLED) ∧
    (submit exDBCovered 10 5 (some "flu again") 2 1).1
      = SubmitResult.created 102 ∧
    ((submit exDBCovered 10 5 (some "flu again") 2 1).2.sickCalls.filter
      (fun x => x.shiftId == 10 &&
        x.status != SickCallStatus.CANCELLED)).length = 2 := by decide

/-- C6 amended: a second sick-call submission for a shift fails exactly while
the shift's status is `SICK_CALL` (the pending/notifying phase of the first
sick call); the guard is the shift status, not the set of non-cancelled sick
calls, so once the first sick call is covered the shift's new assignee can
submit another one even though the first is still non-cancelled. -/
theorem submit_blocked_while_shift_sick_call (db : DB)
    (shiftId locationId : Nat) (reason : Option String)
    (staffId organizationId : Nat) {shift : Shift}
    (hs : db.shifts.find? (fun s => s.id == shiftId) = some shift)
    (hassigned : shift.assignedToId = some staffId)
    (hstatus : shift.status = ShiftStatus.SICK_CALL) :
    submit db shiftId locationId reason staffId organizationId
      = (SubmitResult.alreadySubmitted, db) := by
  have h1 : (shift.assignedToId != some staffId) = false := by simp [hassigned]
  have h2 : (shift.status == ShiftStatus.SICK_CALL) = true := by simp [hstatus]
  simp [submit, hs, h1, h2]

/-- C6 amended witness: while sick call 20 is pending (shift 10 has status
`SICK_CALL`), a second submission by the assignee is rejected unchanged. -/
theorem submit_blocked_while_shift_sick_call_witness :
    submit exDB 10 5 (some "still sick") 1 1
      = (SubmitResult.alreadySubmitted, exDB) :=
  @submit_blocked_while_shift_sick_call exDB 10 5 (some "still sick") 1 1
    shiftS (by decide) (by decide) (by decide)

/-- C10: `respond` verifies neither that the responder was ranked or
notified, nor that they belong to the sick call's organization: any staff
id — here one that received no notification and belongs to no user of the
sick call's organization — can accept a non-covered sick call, gets the
response recorded, and is assigned the shift. -/
theorem respond_accepts_any_staff (db : DB) (scid staffId : Nat)
    (text : String) (tr : TransportResult) {sc : SickCall}
    (hsc : db.sickCalls.find? (fun x => x.id == scid) = some sc)
    (hst : sc.status ≠ SickCallStatus.COVERED)
    (hpt : parseResponse text = some ResponseType.ACCEPT)
    (hnotified : ∀ n ∈ db.notifications, n.recipientId ≠ staffId)
    (hforeign : ∀ u ∈ db.users, u.id = staffId →
      u.organizationId ≠ sc.organizationId) :
    (respond db scid staffId text tr).1 = RespondResult.recorded true ∧
    (∃ r ∈ (respond db scid staffId text tr).2.responses,
      r.sickCallId = scid ∧ r.staffId = staffId ∧
      r.responseType = ResponseType.ACCEPT) ∧
    (respond db scid staffId text tr).2.sickCalls.find? (fun x => x.id == scid)
      = some { sc with
               status := SickCallStatus.COVERED
               coveredById := some staffId
               coveredAt := some db.now } ∧
    (∀ s ∈ (respond db scid staffId text tr).2.shifts, s.id = sc.shiftId →
      s.status = ShiftStatus.COVERED ∧ s.assignedToId = some staffId) := by
  rcases respond_accept_state db scid staffId text tr hsc hst hpt with
    ⟨h1, h2, h3, h4, _⟩
  refine ⟨h1, ?_, ?_, ?_⟩
  · refine ⟨{ id := db.nextId
              sickCallId := scid
              shiftId := sc.shiftId
              staffId := staffId
              responseType := ResponseType.ACCEPT
              responseText := text
              createdAt := db.now }, ?_, rfl, rfl, rfl⟩
    rw [h2]
    exact List.mem_append_right _ (List.mem_singleton_self _)
  · rw [h3, find?_update_sickCalls db.sickCalls scid
      (fun x => { x with
        status := SickCallStatus.COVERED
        coveredById := some staffId
        coveredAt := some db.now }) (fun x => rfl), hsc]
    rfl
  · intro s hsmem hsid
    rw [h4] at hsmem
    rcases List.mem_map.mp hsmem with ⟨s0, hs0, he⟩
    by_cases h0 : s0.id = sc.shiftId
    · have hb : (s0.id == sc.shiftId) = true := by simp [h0]
      rw [← he, hb]
      exact ⟨rfl, rfl⟩
    · have hb : (s0.id == sc.shiftId) = false := by simp [h0]
      rw [← he, hb] at hsid ⊢
      exact absurd hsid h0

/-- C10 witness: staff id 42 — never notified, not a member of organization
1 — texts "OK" on pending sick call 20 and is assigned shift 10. -/
theorem respond_accepts_any_staff_witness :
    (respond exDB 20 42 "OK" (TransportResult.success "sid1")).1
      = RespondResult.recorded true ∧
    (∃ r ∈ (respond exDB 20 42 "OK" (TransportResult.success "sid1")).2.responses,
      r.sickCallId = 20 ∧ r.staffId = 42 ∧
      r.responseType = ResponseType.ACCEPT) ∧
    (respond exDB 20 42 "OK"
        (TransportResult.success "sid1")).2.sickCalls.find? (fun x => x.id == 20)
      = some { sickCall20 with
               status := SickCallStatus.COVERED
               coveredById := some 42
               coveredAt := some 100 } ∧
    (∀ s ∈ (respond exDB 20 42 "OK" (TransportResult.success "sid1")).2.shifts,
      s.id = 10 →
      s.status = ShiftStatus.COVERED ∧ s.assignedToId = some 42) :=
  @respond_accepts_any_staff exDB 20 42 "OK" (TransportResult.success "sid1")
    sickCall20 (by decide) (by decide) (by decide) (by decide) (by decide)

/-- C8: `sendSMS` with a resolvable recipient (user found, phone present)
persists the notification record with status `PENDING` before any transport
is attempted — `sendSMS` is definitionally the create stage followed by the
transport stage, and the create-stage store already holds the pending
record.  On transport success the record becomes `SENT` with timestamp and
the external transport id and the notification id is returned; on transport
failure the record is marked `FAILED` and `sendSMS` returns `none` (the JS
`null`) rather than raising, so the surrounding workflow call is unaffected. -/
theorem sendSMS_persists_before_transport (db : DB) (rid scid : Nat)
    (msg : String) {recipient : User} {ph : String}
    (hu : db.users.find? (fun u => u.id == rid) = some recipient)
    (hp : recipient.phone = some ph)
    (hfresh : ∀ m ∈ db.notifications, m.id ≠ db.nextId) :
    (∃ db1, sendSMSCreateStage db rid scid msg = some (
        { id := db.nextId
          sickCallId := scid
          recipientId := rid
          kind := NotificationKind.SMS
          status := NotificationStatus.PENDING
          message := msg
          sentAt := none
          externalId := none }, db1) ∧
      db1.notifications = db.notifications ++
        [{ id := db.nextId
           sickCallId := scid
           recipientId := rid
           kind := NotificationKind.SMS
           status := NotificationStatus.PENDING
           message := msg
           sentAt := none
           externalId := none }] ∧
      (∀ tr, sendSMS db rid scid msg tr = sendSMSTransportStage db1
        { id := db.nextId
          sickCallId := scid
          recipientId := rid
          kind := NotificationKind.SMS
          status := NotificationStatus.PENDING
          message := msg
          sentAt := none
          externalId := none } tr)) ∧
    (∀ sid, (sendSMS db rid scid msg (TransportResult.success sid)).1
        = some db.nextId ∧
      (sendSMS db rid scid msg (TransportResult.success sid)).2.notifications
        = db.notifications ++
          [{ id := db.nextId
             sickCallId := scid
             recipientId := rid
             kind := NotificationKind.SMS
             status := NotificationStatus.SENT
             message := msg
             sentAt := some db.now
             externalId := some sid }]) ∧
    (sendSMS db rid scid msg TransportResult.failure).1 = none ∧
    (sendSMS db rid scid msg TransportResult.failure).2.notifications
      = (failPendingNotifs db scid rid).notifications ++
        [{ id := db.nextId
           sickCallId := scid
           recipientId := rid
           kind := NotificationKind.SMS
           status := NotificationStatus.FAILED
           message := msg
           sentAt := none
           externalId := none }] := by
  have hcs : sendSMSCreateStage db rid scid msg = some (
      { id := db.nextId
        sickCallId := scid
        recipientId := rid
        kind := NotificationKind.SMS
        status := NotificationStatus.PENDING
        message := msg
        sentAt := none
        externalId := none },
      { db with
        notifications := db.notifications ++
          [{ id := db.nextId
             sickCallId := scid
             recipientId := rid
             kind := NotificationKind.SMS
             status := NotificationStatus.PENDING
             message := msg
             sentAt := none
             externalId := none }]
        nextId := db.nextId + 1 }) := by
    simp only [sendSMSCreateStage, hu, hp]
  have hss : ∀ tr, sendSMS db rid scid msg tr = sendSMSTransportStage
      { db with
        notifications := db.notifications ++
          [{ id := db.nextId
             sickCallId := scid
             recipientId := rid
             kind := NotificationKind.SMS
             status := NotificationStatus.PENDING
             message := msg
             sentAt := none
             externalId := none }]
        nextId := db.nextId + 1 }
      { id := db.nextId
        sickCallId := scid
        recipientId := rid
        kind := NotificationKind.SMS
        status := NotificationStatus.PENDING
        message := msg
        sentAt := none
        externalId := none } tr := by
    intro tr
    simp only [sendSMS, hcs]
  have hmapid : ∀ f : Notification → Notification,
      (∀ m ∈ db.notifications, f m = m) → db.notifications.map f = db.notifications := by
    intro f hf
    exact List.map_congr_left hf ▸ db.notifications.map_id
  refine ⟨⟨_, hcs, rfl, hss⟩, ?_, ?_, ?_⟩
  · intro sid
    rw [hss]
    refine ⟨rfl, ?_⟩
    simp only [sendSMSTransportStage, List.map_append]
    congr 1
    · refine hmapid _ ?_
      intro m hm
      have hmid : (m.id == db.nextId) = false := by simp [hfresh m hm]
      simp [hmid]
    · simp
  · rw [hss]
    rfl
  · rw [hss]
    simp only [sendSMSTransportStage, failPendingNotifs, List.map_append]
    congr 1
    simp

/-- C8 witness: texting staff B (resolvable, has a phone) about sick call 20
on the running example: pending record persisted first, then `SENT` on
success / `FAILED` with a `none` result on transport failure. -/
theorem sendSMS_persists_before_transport_witness :
    (∃ db1, sendSMSCreateStage exDB 2 20 "hi" = some (
        { id := 100
          sickCallId := 20
          recipientId := 2
          kind := NotificationKind.SMS
          status := NotificationStatus.PENDING
          message := "hi"
          sentAt := none
          externalId := none }, db1) ∧
      db1.notifications = exDB.notifications ++
        [{ id := 100
           sickCallId := 20
           recipientId := 2
           kind := NotificationKind.SMS
           status := NotificationStatus.PENDING
           message := "hi"
           sentAt := none
           externalId := none }] ∧
      (∀ tr, sendSMS exDB 2 20 "hi" tr = sendSMSTransportStage db1
        { id := 100
          sickCallId := 20
          recipientId := 2
          kind := NotificationKind.SMS
          status := NotificationStatus.PENDING
          message := "hi"
          sentAt := none
          externalId := none } tr)) ∧
    (∀ sid, (sendSMS exDB 2 20 "hi" (TransportResult.success sid)).1
        = some 100 ∧
      (sendSMS exDB 2 20 "hi" (TransportResult.success sid)).2.notifications
        = exDB.notifications ++
          [{ id := 100
             sickCallId := 20
             recipientId := 2
             kind := NotificationKind.SMS
             status := NotificationStatus.SENT
             message := "hi"
             sentAt := some 100
             externalId := some sid }]) ∧
    (sendSMS exDB 2 20 "hi" TransportResult.failure).1 = none ∧
    (sendSMS exDB 2 20 "hi" TransportResult.failure).2.notifications
      = (failPendingNotifs exDB 20 2).notifications ++
        [{ id := 100
           sickCallId := 20
           recipientId := 2
           kind := NotificationKind.SMS
           status := NotificationStatus.FAILED
           message := "hi"
           sentAt := none
           externalId := none }] :=
  @sendSMS_persists_before_transport exDB 2 20 "hi" userB "+16045550202"
    (by decide) (by decide) (by decide)

end SmartShift
